import Mathlib

/-!
Verification development for the Verus market-data API pipeline
(converter discovery, holdings filter, liquidity calculation, pair
extraction and aggregation).

Modelling conventions:
* Python floats and their decimal string renderings are modelled as exact
  rationals (`ℚ`); there is no NaN in this model.
* Python dicts that the code reads by key are modelled as structures with
  `Option` fields (`none` = key absent / value `None`).
* RPC calls are modelled as oracle functions passed in as parameters;
  `none` models a failed call, an exception, or a missing response field.
* Environment-variable lookups (`get_min_native_tokens`) are modelled as a
  fallible oracle `String → Except Unit ℚ`; `.error ()` models the
  exception path of `float(...)` on a malformed value.
-/

namespace VerusAPI

/-- One entry of `lastnotarization.currencystate.reservecurrencies` in a raw
RPC converter record. -/
structure NotarReserve where
  currencyid : String
  weight : ℚ
  reserves : ℚ
  priceinreserve : ℚ
  deriving Repr, DecidableEq

/-- One entry of a processed `reserve_currencies` list
(as produced by `extract_converter_info`). -/
structure ProcessedReserve where
  currency_id : String
  ticker : String
  weight : ℚ
  reserves : ℚ
  deriving Repr, DecidableEq

/-- The `currencystate` sub-record of a raw converter's `lastnotarization`. -/
structure CurrencyState where
  supply : Option ℚ := none
  reservecurrencies : Option (List NotarReserve) := none
  deriving Repr, DecidableEq

/-- One raw converter dict as returned by the `getcurrencyconverters` RPC,
possibly annotated with `source_chain` during discovery.  `currency_id`
models the one key of the dict that is not one of the fixed keys
(`fullyqualifiedname`, `height`, `output`, `lastnotarization`), which is how
`extract_converter_info` recovers the converter's currency id.
A present `lastnotarization` is modelled as carrying its `currencystate`. -/
structure RawConverter where
  fullyqualifiedname : Option String := none
  currencyname : Option String := none
  currency_id : Option String := none
  source_chain : Option String := none
  reserve_currencies : Option (List ProcessedReserve) := none
  lastnotarization : Option CurrencyState := none
  reserves : Option (List (String × ℚ)) := none
  deriving Repr, DecidableEq

/-- Character-list version of Python's `str.startswith`: does the second
list begin with the first? -/
def listBeginsWith : List Char → List Char → Bool
  | [], _ => true
  | _ :: _, [] => false
  | p :: ps, c :: cs => p == c && listBeginsWith ps cs

/-- Python's `name.startswith(pre)`, evaluated structurally over the
character lists. -/
def beginsWith (s pre : String) : Bool := listBeginsWith pre.data s.data

/-- Source `converter.get('fullyqualifiedname', '')`. -/
def fqn (c : RawConverter) : String := c.fullyqualifiedname.getD ""

/-- Source `converter.get('source_chain', 'VRSC')`. -/
def source_chain_of (c : RawConverter) : String := c.source_chain.getD "VRSC"

/-- The fixed home-chain table for bridge converters
(`bridge_converter_chains` in `filter_bridge_converters_by_chain`). -/
def bridge_converter_chains : List (String × String) :=
  [("Bridge.CHIPS", "CHIPS"),
   ("Bridge.vARRR", "VARRR"),
   ("Bridge.vDEX", "VDEX"),
   ("Bridge.vETH", "VRSC")]

/-- Source `bridge_converter_chains.get(converter_name)`. -/
def lookupBridgeChain (name : String) : Option String :=
  (bridge_converter_chains.find? (fun p => p.1 = name)).map (fun p => p.2)

/-- Source `filter_bridge_converters_by_chain(converters_data, chain)`: keep a
converter whose name starts with `Bridge.` only when the home-chain table
maps its name to the chain being scanned; keep every other converter. -/
def filter_bridge_converters_by_chain (converters_data : List RawConverter)
    (chain : String) : List RawConverter :=
  converters_data.filter (fun c =>
    if beginsWith (fqn c) "Bridge." then
      decide (lookupBridgeChain (fqn c) = some chain)
    else
      true)

/-- The currency-id table used by `get_native_token_holdings` for the raw
notarization shape (`chain_currency_ids`). -/
def chain_currency_ids : List (String × String) :=
  [("VRSC", "i5w5MuNik5NtLcYmNzcvaoixooEebB6MGV"),
   ("CHIPS", "iJ3WZocnjG9ufv7GKUA4LijQno5gTMb7tP"),
   ("VARRR", "iExBJfZYK7KREDpuhj6PzZBzqMAKaFg7d2"),
   ("VDEX", "iHog9UCTrn95qpUBFCZ7kKz7qWdMA8MQ6N")]

/-- Source `get_native_token_holdings(converter, chain)`: the amount of the chain's
own native currency held by the converter, tried over the three legacy
reserve-encoding shapes in the source's `if`/`elif` priority order. -/
def get_native_token_holdings (c : RawConverter) (chain : String) : ℚ :=
  match c.reserve_currencies with
  | some rcs =>
      match rcs.find? (fun r => r.ticker = chain) with
      | some r => r.reserves
      | none => 0
  | none =>
  match c.lastnotarization with
  | some cs =>
      let rcs := cs.reservecurrencies.getD []
      let byName : ℚ :=
        match rcs.find? (fun r => r.currencyid = chain) with
        | some r => r.reserves
        | none => 0
      match (chain_currency_ids.find? (fun p => p.1 = chain)).map (fun p => p.2) with
      | some tid =>
          match rcs.find? (fun r => r.currencyid = tid) with
          | some r => r.reserves
          | none => byName
      | none => byName
  | none =>
  match c.reserves with
  | some flat =>
      match flat.find? (fun p => p.1 = chain) with
      | some p => p.2
      | none => 0
  | none => 0

/-- The predicate `native_holdings >= min_threshold` used by the holdings
filter, with the threshold looked up through the (fallible) environment
oracle; `false` on a failed lookup (that case is diverted by the
exception handler, see `filter_converters_by_native_holdings`). -/
def holdingsPred (minTokens : String → Except Unit ℚ) (c : RawConverter) : Bool :=
  match minTokens (source_chain_of c) with
  | .ok m => decide (m ≤ get_native_token_holdings c (source_chain_of c))
  | .error _ => false

/-- The loop body of `filter_converters_by_native_holdings`, propagating the
exception of a failed threshold lookup. -/
def holdingsGo (minTokens : String → Except Unit ℚ) :
    List RawConverter → Except Unit (List RawConverter × List RawConverter)
  | [] => .ok ([], [])
  | c :: rest =>
      match minTokens (source_chain_of c) with
      | .error u => .error u
      | .ok m =>
          match holdingsGo minTokens rest with
          | .error u => .error u
          | .ok (inc, exc) =>
              if m ≤ get_native_token_holdings c (source_chain_of c) then
                .ok (c :: inc, exc)
              else
                .ok (inc, c :: exc)

/-- Source `filter_converters_by_native_holdings(converters_data)`: split converters
into (included, excluded) by comparing native holdings against the chain's
configured minimum; the surrounding `except` handler returns the whole
input as included when any threshold lookup raises. -/
def filter_converters_by_native_holdings (minTokens : String → Except Unit ℚ)
    (converters_data : List RawConverter) : List RawConverter × List RawConverter :=
  match holdingsGo minTokens converters_data with
  | .ok r => r
  | .error _ => (converters_data, [])

/-- The processed converter record produced by `extract_converter_info`
(the fields the downstream stages read; presentation-only copies such as
`raw_data` are not modelled). -/
structure ConverterInfo where
  name : Option String := none
  currency_id : Option String := none
  supply : Option ℚ := none
  source_chain : Option String := none
  chain : Option String := none
  reserve_currencies : List ProcessedReserve := []
  currencies : List String := []
  deriving Repr, DecidableEq

/-- Source `extract_converter_info(converter)`: turn one raw converter dict into the
processed record, resolving reserve tickers through the currency-mapping
oracle `tickerOf` (`get_ticker_by_id`). -/
def extract_converter_info (tickerOf : String → String) (c : RawConverter) :
    ConverterInfo :=
  let rcs :=
    match c.lastnotarization with
    | some cs =>
        (cs.reservecurrencies.getD []).map (fun rc =>
          ({ currency_id := rc.currencyid
             ticker := tickerOf rc.currencyid
             weight := rc.weight
             reserves := rc.reserves } : ProcessedReserve))
    | none => []
  { name := c.fullyqualifiedname
    currency_id := c.currency_id
    supply :=
      match c.lastnotarization with
      | some cs => cs.supply
      | none => none
    source_chain := some (source_chain_of c)
    chain := some (source_chain_of c)
    reserve_currencies := rcs
    currencies := (rcs.map (fun r => r.ticker)).filter (fun t => t ≠ "") }

/-- Python dict assignment `d[k] = v`: replace the value at an existing key
in place, otherwise append the new binding. -/
def dictInsert {α : Type} : List (String × α) → String → α → List (String × α)
  | [], k, v => [(k, v)]
  | p :: rest, k, v =>
      if p.1 = k then (k, v) :: rest else p :: dictInsert rest k v

/-- Python dict lookup `d.get(k)`. -/
def dictLookup {α : Type} (l : List (String × α)) (k : String) : Option α :=
  (l.find? (fun p => p.1 = k)).map (fun p => p.2)

/-- The per-chain record stored in `chain_results` by
`discover_active_converters`. -/
structure ChainResult where
  count : Nat
  converters : List RawConverter
  total_found : Nat
  bridge_filtered : Nat
  deriving Repr, DecidableEq

/-- The zero record stored for a chain whose converter query failed or
returned no converters. -/
def zeroChainResult : ChainResult :=
  { count := 0, converters := [], total_found := 0, bridge_filtered := 0 }

/-- One iteration of the per-chain loop of `discover_active_converters`:
fetch the chain's converters (`none` models a failed `get_all_converters`),
apply the bridge filter, and tag each survivor with its source chain.
An empty fetched list is falsy in Python and yields the zero record. -/
def per_chain_result (fetch : String → Option (List RawConverter))
    (chain : String) : ChainResult :=
  match fetch chain with
  | some raw =>
      if raw = [] then zeroChainResult
      else
        let filtered :=
          (filter_bridge_converters_by_chain raw chain).map
            (fun c => { c with source_chain := some chain })
        { count := filtered.length
          converters := filtered
          total_found := raw.length
          bridge_filtered := raw.length - filtered.length }
  | none => zeroChainResult

/-- What one chain contributes to the merged `all_raw_converters` list. -/
def per_chain_converters (fetch : String → Option (List RawConverter))
    (chain : String) : List RawConverter :=
  (per_chain_result fetch chain).converters

/-- The result record of `discover_active_converters`. -/
structure DiscoveryResult where
  active_converters : List ConverterInfo
  excluded_converters : List ConverterInfo
  total_count : Nat
  active_count : Nat
  excluded_count : Nat
  chains : List (String × ChainResult)
  error : Option String
  deriving Repr, DecidableEq

/-- Source `discover_active_converters(chains)`: walk the configured chains,
accumulate each chain's bridge-filtered, source-tagged converters, return
the run-level error record when the merged list is empty, otherwise split
the merged list through the native-holdings filter and extract processed
info for both sides. -/
def discover_active_converters (fetch : String → Option (List RawConverter))
    (minTokens : String → Except Unit ℚ) (tickerOf : String → String)
    (chains : List String) : DiscoveryResult :=
  let all_raw_converters := chains.flatMap (per_chain_converters fetch)
  let chain_results :=
    chains.foldl (fun acc chain => dictInsert acc chain (per_chain_result fetch chain)) []
  if all_raw_converters = [] then
    { active_converters := []
      excluded_converters := []
      total_count := 0
      active_count := 0
      excluded_count := 0
      chains := chain_results
      error := some "Failed to fetch converters from any chain" }
  else
    let split := filter_converters_by_native_holdings minTokens all_raw_converters
    let active_converter_info := split.1.map (extract_converter_info tickerOf)
    let excluded_converter_info := split.2.map (extract_converter_info tickerOf)
    { active_converters := active_converter_info
      excluded_converters := excluded_converter_info
      total_count := all_raw_converters.length
      active_count := active_converter_info.length
      excluded_count := excluded_converter_info.length
      chains := chain_results
      error := none }

/-- An `estimateconversion` RPC query: the chain the call is made on, the
source currency, the target currency, and the optional `via` bridge. -/
structure ConvQuery where
  chain : String
  currency : String
  convertto : String
  via : Option String
  deriving Repr, DecidableEq

/-- Source `get_vrsc_usd_price_cached()`: VRSC → DAI.vETH via Bridge.vETH; 0 on a
failed call or missing field. -/
def get_vrsc_usd_price_cached (est : ConvQuery → Option ℚ) : ℚ :=
  (est { chain := "VRSC", currency := "VRSC", convertto := "DAI.vETH",
         via := some "Bridge.vETH" }).getD 0

/-- The bridge name chosen by `get_chain_to_vrsc_rate` for a chain. -/
def bridge_name_for (chain : String) : String :=
  if chain = "CHIPS" then "Bridge.CHIPS"
  else if chain = "VARRR" then "Bridge.vARRR"
  else if chain = "VDEX" then "Bridge.vDEX"
  else "Bridge." ++ chain

/-- Source `get_chain_to_vrsc_rate(chain)`: native currency → VRSC via the chain's
bridge; 0 on failure. -/
def get_chain_to_vrsc_rate (est : ConvQuery → Option ℚ) (chain : String) : ℚ :=
  (est { chain := chain, currency := chain, convertto := "VRSC",
         via := some (bridge_name_for chain) }).getD 0

/-- Source `get_chain_usd_price(chain)`: chain → VRSC → USD, 0 as soon as either
step fails or is nonpositive. -/
def get_chain_usd_price (est : ConvQuery → Option ℚ) (chain : String) : ℚ :=
  let chain_to_vrsc_rate := get_chain_to_vrsc_rate est chain
  if chain_to_vrsc_rate ≤ 0 then 0
  else
    let vrsc_usd_price := get_vrsc_usd_price_cached est
    if vrsc_usd_price ≤ 0 then 0
    else chain_to_vrsc_rate * vrsc_usd_price

/-- Step 1 of `get_converter_liquidity`: the converter → native-chain-currency
ratio, following the source's three branches (bridge converters hosted on
VARRR/VDEX, VRSC converters, and native converters of other chains);
0 on a failed call. -/
def converter_native_ratio (est : ConvQuery → Option ℚ) (converter_name : String)
    (info : ConverterInfo) : ℚ :=
  let source_chain := info.source_chain.getD "VRSC"
  let cid := info.currency_id.getD ""
  if (source_chain = "VARRR" ∨ source_chain = "VDEX") ∧
      beginsWith converter_name "Bridge." then
    (est { chain := source_chain, currency := cid, convertto := source_chain,
           via := none }).getD 0
  else if source_chain = "VRSC" then
    (est { chain := "VRSC", currency := cid, convertto := "VRSC",
           via := none }).getD 0
  else
    (est { chain := source_chain, currency := cid, convertto := source_chain,
           via := none }).getD 0

/-- Step 2 of `get_converter_liquidity`: the native-currency USD price,
direct for VRSC and chained through VRSC for every other chain. -/
def converter_native_usd_price (est : ConvQuery → Option ℚ)
    (source_chain : String) : ℚ :=
  if source_chain = "VRSC" then get_vrsc_usd_price_cached est
  else get_chain_usd_price est source_chain

/-- Source `get_converter_liquidity(converter_name, converters_data,
min_liquidity_threshold)`: total converter liquidity in USD.  A `none`
supply models a Python `None` value, whose `float(...)` raises and is
caught by the enclosing handler (returning 0). -/
def get_converter_liquidity (est : ConvQuery → Option ℚ)
    (converter_name : String) (converters_data : List ConverterInfo)
    (min_liquidity_threshold : ℚ) : ℚ :=
  match converters_data.find? (fun c => c.name = some converter_name) with
  | none => 0
  | some info =>
    match info.supply with
    | none => 0
    | some supply =>
      if info.currency_id = none ∨ info.currency_id = some "" ∨ supply ≤ 0 then 0
      else
        let native_ratio := converter_native_ratio est converter_name info
        if native_ratio ≤ 0 then 0
        else
          let native_usd_price :=
            converter_native_usd_price est (info.source_chain.getD "VRSC")
          if native_usd_price ≤ 0 then 0
          else
            let total_liquidity := supply * native_ratio * native_usd_price
            if supply < min_liquidity_threshold then 0
            else total_liquidity

/-- The weight-collection loop of `get_pair_liquidity`: the last reserve
entry matching each ticker wins, and every weight is added to the total. -/
def pairWeights (rcs : List ProcessedReserve) (base_currency target_currency : String) :
    ℚ × ℚ × ℚ :=
  rcs.foldl
    (fun acc rc =>
      let w := rc.weight
      ((if rc.ticker = base_currency then w else acc.1),
       (if rc.ticker = target_currency then w else acc.2.1),
       acc.2.2 + w))
    (0, 0, 0)

/-- Source `get_pair_liquidity(converter_name, base_currency, target_currency,
converters_data)`: apportion the converter's total liquidity to one pair by
reserve weight, doubling the share when one side is the converter's own
basket token. -/
def get_pair_liquidity (est : ConvQuery → Option ℚ) (converter_name : String)
    (base_currency target_currency : String)
    (converters_data : List ConverterInfo) : ℚ :=
  let total_liquidity := get_converter_liquidity est converter_name converters_data 1000
  if total_liquidity ≤ 0 then 0
  else
    match converters_data.find? (fun c => c.name = some converter_name) with
    | none => 0
    | some info =>
      let ws := pairWeights info.reserve_currencies base_currency target_currency
      let base_weight := ws.1
      let target_weight := ws.2.1
      let total_weight := ws.2.2
      let base_is_converter := base_currency = converter_name
      let target_is_converter := target_currency = converter_name
      if base_is_converter ∨ target_is_converter then
        let non_converter_weight :=
          if base_is_converter then target_weight else base_weight
        if 0 < non_converter_weight ∧ 0 < total_weight then
          (non_converter_weight / total_weight) * total_liquidity * 2
        else 0
      else
        if 0 < base_weight ∧ 0 < target_weight ∧ 0 < total_weight then
          ((base_weight + target_weight) / total_weight) * total_liquidity
        else 0

/-- One entry of a `volumepairs` list returned by the `getcurrencystate`
chain-state query (`openp`/`closep` model the `open`/`close` keys, which are
reserved words in Lean). -/
structure VolumePair where
  currency : String
  convertto : String
  volume : ℚ := 0
  openp : ℚ := 0
  high : ℚ := 0
  low : ℚ := 0
  closep : ℚ := 0
  deriving Repr, DecidableEq

/-- The OHLC record returned by `find_pair_ohlc`. -/
structure OhlcData where
  openp : ℚ := 0
  high : ℚ := 0
  low : ℚ := 0
  closep : ℚ := 0
  deriving Repr, DecidableEq

/-- Source `find_pair_volume(volume_pairs, from_currency, to_currency)`. -/
def find_pair_volume (volume_pairs : List VolumePair)
    (from_currency to_currency : String) : ℚ :=
  match volume_pairs.find? (fun p =>
      p.currency = from_currency ∧ p.convertto = to_currency) with
  | some p => p.volume
  | none => 0

/-- Source `find_pair_ohlc(volume_pairs, from_currency, to_currency)`. -/
def find_pair_ohlc (volume_pairs : List VolumePair)
    (from_currency to_currency : String) : OhlcData :=
  match volume_pairs.find? (fun p =>
      p.currency = from_currency ∧ p.convertto = to_currency) with
  | some p => { openp := p.openp, high := p.high, low := p.low, closep := p.closep }
  | none => {}

/-- Source `get_converter_currencies(converter)`: the converter's own basket token
(when its name is truthy) followed by all reserve tickers, each with its
currency id. -/
def get_converter_currencies (c : ConverterInfo) : List (String × String) :=
  (match c.name with
   | some n => if n = "" then [] else [(n, c.currency_id.getD "")]
   | none => []) ++
  c.reserve_currencies.map (fun r => (r.ticker, r.currency_id))

/-- Source `get_currency_id_by_symbol(currencies, symbol)`. -/
def get_currency_id_by_symbol (currencies : List (String × String))
    (symbol : String) : String :=
  match currencies.find? (fun p => p.1 = symbol) with
  | some p => p.2
  | none => ""

/-- One extracted pair record (the fields of `pair_data` in
`extract_all_pairs_data` that downstream stages read; duplicated
`*_24h`/`raw_*` copies are not modelled separately). -/
structure PairData where
  converter : String := ""
  base_currency : String := ""
  target_currency : String := ""
  base_currency_id : String := ""
  target_currency_id : String := ""
  base_volume : ℚ := 0
  target_volume : ℚ := 0
  last_price : ℚ := 0
  openp : ℚ := 0
  high : ℚ := 0
  low : ℚ := 0
  last : ℚ := 0
  pair_liquidity_usd : ℚ := 0
  deriving Repr, DecidableEq

/-- The body of the ordered-combination double loop of
`extract_all_pairs_data` for one `(base, target)` combination:
read the base-lens volume, the target-lens volume and the target-lens OHLC,
and materialize a record only when one of the two volumes is positive.
`all_volume_data` maps a lens currency to its `volume_pairs` (`none` models
a failed `get_currency_volume_info`). -/
def pairs_for_combination (all_volume_data : String → Option (List VolumePair))
    (liq : String → String → ℚ) (converter_name : String)
    (currencies : List (String × String)) (base_currency target_currency : String) :
    List PairData :=
  if base_currency = target_currency then []
  else
    let raw_base_volume :=
      match all_volume_data base_currency with
      | some vps => find_pair_volume vps base_currency target_currency
      | none => 0
    let raw_target_volume :=
      match all_volume_data target_currency with
      | some vps => find_pair_volume vps base_currency target_currency
      | none => 0
    let ohlc :=
      match all_volume_data target_currency with
      | some vps => find_pair_ohlc vps base_currency target_currency
      | none => {}
    if 0 < raw_base_volume ∨ 0 < raw_target_volume then
      [{ converter := converter_name
         base_currency := base_currency
         target_currency := target_currency
         base_currency_id := get_currency_id_by_symbol currencies base_currency
         target_currency_id := get_currency_id_by_symbol currencies target_currency
         base_volume := raw_base_volume
         target_volume := raw_target_volume
         last_price := ohlc.closep
         openp := ohlc.openp
         high := ohlc.high
         low := ohlc.low
         last := ohlc.closep
         pair_liquidity_usd := liq base_currency target_currency }]
    else []

/-- The full ordered cross-product of one converter's currencies. -/
def extract_pairs_for_converter (all_volume_data : String → Option (List VolumePair))
    (liq : String → String → ℚ) (converter_name : String)
    (currencies : List (String × String)) : List PairData :=
  let symbols := currencies.map (fun p => p.1)
  symbols.flatMap (fun base_currency =>
    symbols.flatMap (fun target_currency =>
      pairs_for_combination all_volume_data liq converter_name currencies
        base_currency target_currency))

/-- Modelled from the spec: `apply_universal_price_inversion` from
`price_inversion.py`, which is not part of the sources here.  Per §4.6 a
static price-direction rule, keyed by the currency-pair identity, decides
whether a pair's blockchain-rate prices are inverted so that price is
expressed target-per-base; volumes and identities are not affected
(`(0 : ℚ)⁻¹ = 0` models the guarded inversion of a zero price). -/
def apply_universal_price_inversion (rule : String → String → Bool)
    (p : PairData) : PairData :=
  if rule p.base_currency p.target_currency then
    { p with last_price := p.last_price⁻¹, last := p.last⁻¹,
             openp := p.openp⁻¹, high := p.high⁻¹, low := p.low⁻¹ }
  else p

/-- The pair-extraction core of `extract_all_pairs_data()`: for every active
converter with at least two currencies, build all ordered pair combinations
and apply the universal price inversion to each materialized record.
`all_volume_data` is indexed by converter name and lens currency. -/
def extract_all_pairs_data
    (all_volume_data : String → String → Option (List VolumePair))
    (est : ConvQuery → Option ℚ) (rule : String → String → Bool)
    (converters : List ConverterInfo) : List PairData :=
  converters.flatMap (fun conv =>
    let converter_name := conv.name.getD "Unknown"
    let currencies := get_converter_currencies conv
    if currencies.length < 2 then []
    else
      (extract_pairs_for_converter (all_volume_data converter_name)
        (fun b t => get_pair_liquidity est converter_name b t converters)
        converter_name currencies).map (apply_universal_price_inversion rule))

/-- One aggregated ticker of `aggregate_pairs_for_iaddress_cmc`. -/
structure CmcTicker where
  base_id : String := ""
  base_name : String := ""
  base_symbol : String := ""
  quote_id : String := ""
  quote_name : String := ""
  quote_symbol : String := ""
  last_price : ℚ := 0
  base_volume : ℚ := 0
  quote_volume : ℚ := 0
  deriving Repr, DecidableEq

/-- One step of `aggregate_pairs_for_iaddress_cmc`: skip pairs without base
volume; on a repeated `base-id_target-id` key sum both volumes and
recombine the price as the quote-volume-weighted average (falling back to
the new price on zero total weight); otherwise start a fresh ticker. -/
def aggregate_cmc_step (agg : List (String × CmcTicker)) (p : PairData) :
    List (String × CmcTicker) :=
  let pair_key := p.base_currency_id ++ "_" ++ p.target_currency_id
  if p.base_volume ≤ 0 then agg
  else
    match dictLookup agg pair_key with
    | some existing =>
        let total_base_vol := existing.base_volume + p.base_volume
        let total_quote_vol := existing.quote_volume + p.target_volume
        let weighted_price :=
          if 0 < existing.quote_volume + p.target_volume then
            (existing.last_price * existing.quote_volume + p.last * p.target_volume) /
              (existing.quote_volume + p.target_volume)
          else p.last
        dictInsert agg pair_key
          { existing with last_price := weighted_price,
                          base_volume := total_base_vol,
                          quote_volume := total_quote_vol }
    | none =>
        agg ++ [(pair_key,
          { base_id := p.base_currency_id
            base_name := p.base_currency
            base_symbol := p.base_currency
            quote_id := p.target_currency_id
            quote_name := p.target_currency
            quote_symbol := p.target_currency
            last_price := p.last
            base_volume := p.base_volume
            quote_volume := p.target_volume })]

/-- Source `aggregate_pairs_for_iaddress_cmc(pairs_data)`: fold every extracted
pair record into the keyed aggregation dict. -/
def aggregate_pairs_for_iaddress_cmc (pairs_data : List PairData) :
    List (String × CmcTicker) :=
  pairs_data.foldl aggregate_cmc_step []

/-! ### Concrete instances used by scenario conjuncts, counterexamples and
witnesses. -/

/-- A threshold oracle with every chain's minimum configured to 100
(the source's global default). -/
def mtW : String → Except Unit ℚ := fun _ => .ok 100

/-- A threshold oracle whose lookup raises (malformed environment value). -/
def mtBad : String → Except Unit ℚ := fun _ => .error ()

/-- A converter holding 50 VRSC (below the minimum of 100). -/
def cBelow : RawConverter :=
  { fullyqualifiedname := some "Dust.pool"
    currencyname := some "Dust.pool"
    reserve_currencies := some [{ currency_id := "i-vrsc", ticker := "VRSC",
                                  weight := 1/2, reserves := 50 }] }

/-- A converter holding 500 VRSC (above the minimum of 100). -/
def cAbove : RawConverter :=
  { fullyqualifiedname := some "Big.pool"
    currencyname := some "Big.pool"
    reserve_currencies := some [{ currency_id := "i-vrsc", ticker := "VRSC",
                                  weight := 1/2, reserves := 500 }] }

/-- An RPC oracle on which every conversion estimate fails. -/
def estFail : ConvQuery → Option ℚ := fun _ => none

/-- A well-formed VRSC converter record (used against `estFail`). -/
def infoC3 : ConverterInfo :=
  { name := some "TestConv", currency_id := some "i-test",
    supply := some 5000, source_chain := some "VRSC" }

/-- A bridge-named converter that is absent from the home-chain table. -/
def unmappedBridgeConv : RawConverter :=
  { fullyqualifiedname := some "Bridge.QUARK" }

/-- The processed `Bridge.vETH` record of the §8 scenario: supply 69,665.9,
four reserves of weight 25% each. -/
def vethInfo : ConverterInfo :=
  { name := some "Bridge.vETH", currency_id := some "i-bridge-veth",
    supply := some (696659/10), source_chain := some "VRSC",
    reserve_currencies :=
      [{ currency_id := "i-vrsc", ticker := "VRSC", weight := 1/4, reserves := 10000 },
       { currency_id := "i-veth", ticker := "vETH", weight := 1/4, reserves := 100 },
       { currency_id := "i-dai", ticker := "DAI.vETH", weight := 1/4, reserves := 500000 },
       { currency_id := "i-mkr", ticker := "MKR.vETH", weight := 1/4, reserves := 300 }] }

/-- The §8 scenario rates: converter → VRSC estimates at 156.72 and
VRSC → DAI.vETH estimates at 2.15. -/
def vethEst : ConvQuery → Option ℚ := fun q =>
  if q = { chain := "VRSC", currency := "i-bridge-veth", convertto := "VRSC",
           via := none } then some (15672/100)
  else if q = { chain := "VRSC", currency := "VRSC", convertto := "DAI.vETH",
                via := some "Bridge.vETH" } then some (215/100)
  else none

/-- A converter whose raw supply of 500 sits below the supply floor of 1000. -/
def lowSupplyInfo : ConverterInfo :=
  { name := some "Tiny.pool", currency_id := some "i-tiny",
    supply := some 500, source_chain := some "VRSC" }

/-- First contributor of the §8 aggregation scenario: volumes (100, 50),
price 2.0. -/
def cmcP1 : PairData :=
  { converter := "conv1", base_currency := "AAA", target_currency := "BBB",
    base_currency_id := "i-aaa", target_currency_id := "i-bbb",
    base_volume := 100, target_volume := 50, last_price := 2, last := 2 }

/-- Second contributor of the §8 aggregation scenario: volumes (50, 25),
price 4.0. -/
def cmcP2 : PairData :=
  { converter := "conv2", base_currency := "AAA", target_currency := "BBB",
    base_currency_id := "i-aaa", target_currency_id := "i-bbb",
    base_volume := 50, target_volume := 25, last_price := 4, last := 4 }

/-- A converter with a basket token `C` and one reserve currency `A`. -/
def convW : ConverterInfo :=
  { name := some "C", currency_id := some "i-c",
    supply := some 2000, source_chain := some "VRSC",
    reserve_currencies :=
      [{ currency_id := "i-a", ticker := "A", weight := 1/2, reserves := 10 }] }

/-- A volume-pairs entry reporting volume 5 for the `C → A` direction. -/
def vpCA : VolumePair :=
  { currency := "C", convertto := "A", volume := 5,
    openp := 1, high := 1, low := 1, closep := 1 }

/-- A volume oracle answering every lens query with the single `C → A`
entry. -/
def avdW : String → String → Option (List VolumePair) := fun _ _ => some [vpCA]

/-- A price-inversion rule set that inverts nothing. -/
def ruleW : String → String → Bool := fun _ _ => false

/-- The one pair record extracted from `convW` under `avdW`. -/
def pW : PairData :=
  { converter := "C", base_currency := "C", target_currency := "A",
    base_currency_id := "i-c", target_currency_id := "i-a",
    base_volume := 5, target_volume := 5,
    last_price := 1, openp := 1, high := 1, low := 1, last := 1,
    pair_liquidity_usd := 0 }

/-- A raw `Bridge.CHIPS` converter as reported by an RPC scan, holding
200 CHIPS in its notarization reserves. -/
def bcRaw : RawConverter :=
  { fullyqualifiedname := some "Bridge.CHIPS"
    currency_id := some "i-bridge-chips"
    lastnotarization := some
      { supply := some 5000
        reservecurrencies := some
          [{ currencyid := "iJ3WZocnjG9ufv7GKUA4LijQno5gTMb7tP",
             weight := 1/2, reserves := 200, priceinreserve := 1 }] } }

/-- A fetch oracle on which both the CHIPS and the VRSC scan report the
`Bridge.CHIPS` converter. -/
def scenFetch : String → Option (List RawConverter) := fun chain =>
  if chain = "CHIPS" then some [bcRaw]
  else if chain = "VRSC" then some [bcRaw]
  else none

/-- The identity currency-mapping oracle. -/
def tickerId : String → String := fun s => s

/-- A fetch oracle where the single configured chain reports one converter
(which the bridge filter then removes). -/
def c9Fetch : String → Option (List RawConverter) := fun chain =>
  if chain = "VRSC" then some [bcRaw] else none

/-! ### Holdings-filter lemmas -/

/-- When every threshold lookup succeeds, `holdingsGo` splits the input by
the holdings predicate. -/
lemma holdingsGo_ok (minTokens : String → Except Unit ℚ) :
    ∀ l : List RawConverter,
      (∀ c ∈ l, ∃ m, minTokens (source_chain_of c) = .ok m) →
      holdingsGo minTokens l =
        .ok (l.filter (holdingsPred minTokens),
             l.filter (fun c => !holdingsPred minTokens c)) := by
  intro l
  induction l with
  | nil => intro _; rfl
  | cons c rest ih =>
      intro h
      obtain ⟨m, hm⟩ := h c (List.mem_cons_self c rest)
      have hrest := ih (fun d hd => h d (List.mem_cons_of_mem c hd))
      by_cases hcmp : m ≤ get_native_token_holdings c (source_chain_of c)
      · have hp : holdingsPred minTokens c = true := by
          simp [holdingsPred, hm, hcmp]
        simp [holdingsGo, hm, hrest, hcmp, hp]
      · have hp : holdingsPred minTokens c = false := by
          simp [holdingsPred, hm, hcmp]
        simp [holdingsGo, hm, hrest, hcmp, hp]

/-- A failed threshold lookup anywhere in the list makes `holdingsGo`
raise. -/
lemma holdingsGo_error (minTokens : String → Except Unit ℚ) :
    ∀ l : List RawConverter,
      (∃ c ∈ l, minTokens (source_chain_of c) = .error ()) →
      holdingsGo minTokens l = .error () := by
  intro l
  induction l with
  | nil => rintro ⟨c, hc, -⟩; exact absurd hc (List.not_mem_nil c)
  | cons c rest ih =>
      rintro ⟨d, hd, hde⟩
      rcases List.mem_cons.mp hd with rfl | hdrest
      · simp [holdingsGo, hde]
      · cases hc : minTokens (source_chain_of c) with
        | error u => cases u; simp [holdingsGo, hc]
        | ok m => simp [holdingsGo, hc, ih ⟨d, hdrest, hde⟩]

/-- Either every lookup in the list succeeds, or some lookup raises. -/
lemma holdings_cases (minTokens : String → Except Unit ℚ) (l : List RawConverter) :
    (∀ c ∈ l, ∃ m, minTokens (source_chain_of c) = .ok m) ∨
    (∃ c ∈ l, minTokens (source_chain_of c) = .error ()) := by
  by_cases h : ∀ c ∈ l, ∃ m, minTokens (source_chain_of c) = .ok m
  · exact Or.inl h
  · right
    push_neg at h
    obtain ⟨c, hc, hm⟩ := h
    cases he : minTokens (source_chain_of c) with
    | ok m => exact absurd he (hm m)
    | error u => cases u; exact ⟨c, hc, he⟩

/-- Success-path characterization of the holdings filter. -/
lemma filter_holdings_ok (minTokens : String → Except Unit ℚ)
    (l : List RawConverter)
    (h : ∀ c ∈ l, ∃ m, minTokens (source_chain_of c) = .ok m) :
    filter_converters_by_native_holdings minTokens l =
      (l.filter (holdingsPred minTokens),
       l.filter (fun c => !holdingsPred minTokens c)) := by
  unfold filter_converters_by_native_holdings
  rw [holdingsGo_ok minTokens l h]

/-- Exception-path characterization of the holdings filter. -/
lemma filter_holdings_error (minTokens : String → Except Unit ℚ)
    (l : List RawConverter)
    (h : ∃ c ∈ l, minTokens (source_chain_of c) = .error ()) :
    filter_converters_by_native_holdings minTokens l = (l, []) := by
  unfold filter_converters_by_native_holdings
  rw [holdingsGo_error minTokens l h]

/-- Splitting a list by any Boolean predicate preserves counts. -/
lemma countP_filter_add_filter_not {α : Type} (l : List α) (q p : α → Bool) :
    (l.filter p).countP q + (l.filter (fun a => !p a)).countP q = l.countP q := by
  induction l with
  | nil => rfl
  | cons a t ih =>
      cases hp : p a <;> cases hq : q a <;>
        simp [List.filter_cons, hp, hq, List.countP_cons] <;> omega

/-- The two output lists of the holdings filter jointly carry exactly the
occurrences of the input list (for any counting predicate). -/
lemma filter_holdings_countP (minTokens : String → Except Unit ℚ)
    (l : List RawConverter) (q : RawConverter → Bool) :
    (filter_converters_by_native_holdings minTokens l).1.countP q +
      (filter_converters_by_native_holdings minTokens l).2.countP q =
      l.countP q := by
  rcases holdings_cases minTokens l with h | h
  · rw [filter_holdings_ok minTokens l h]
    exact countP_filter_add_filter_not l q (holdingsPred minTokens)
  · rw [filter_holdings_error minTokens l h]
    simp

/-- Every converter placed in either output of the holdings filter comes
from the input list. -/
lemma filter_holdings_mem (minTokens : String → Except Unit ℚ)
    (l : List RawConverter) (c : RawConverter)
    (h : c ∈ (filter_converters_by_native_holdings minTokens l).1 ∨
         c ∈ (filter_converters_by_native_holdings minTokens l).2) :
    c ∈ l := by
  rcases holdings_cases minTokens l with hok | herr
  · rw [filter_holdings_ok minTokens l hok] at h
    rcases h with h | h <;> exact List.mem_of_mem_filter h
  · rw [filter_holdings_error minTokens l herr] at h
    rcases h with h | h
    · exact h
    · exact absurd h (List.not_mem_nil c)

/-- C2: for every chain with a configured (successfully looked-up) minimum,
the holdings filter places every converter whose native reserve is below
the minimum in the excluded list and not in the included list, and keeps
every converter at or above the minimum in the included list. -/
theorem holdings_filter_invariant (minTokens : String → Except Unit ℚ)
    (converters_data : List RawConverter)
    (hok : ∀ c ∈ converters_data, ∃ m, minTokens (source_chain_of c) = .ok m) :
    ∀ c ∈ converters_data, ∀ m, minTokens (source_chain_of c) = .ok m →
      (get_native_token_holdings c (source_chain_of c) < m →
        c ∈ (filter_converters_by_native_holdings minTokens converters_data).2 ∧
        c ∉ (filter_converters_by_native_holdings minTokens converters_data).1) ∧
      (m ≤ get_native_token_holdings c (source_chain_of c) →
        c ∈ (filter_converters_by_native_holdings minTokens converters_data).1) := by
  intro c hc m hm
  rw [filter_holdings_ok minTokens converters_data hok]
  constructor
  · intro hlt
    have hp : holdingsPred minTokens c = false := by
      simp [holdingsPred, hm, not_le.mpr hlt]
    constructor
    · simp [List.mem_filter, hc, hp]
    · simp [List.mem_filter, hp]
  · intro hge
    have hp : holdingsPred minTokens c = true := by
      simp [holdingsPred, hm, hge]
    simp [List.mem_filter, hc, hp]

/-- Witness for C2 at a concrete list: the 50-VRSC converter is excluded and
the 500-VRSC converter is included against a configured minimum of 100. -/
theorem holdings_filter_invariant_witness :
    (cBelow ∈ (filter_converters_by_native_holdings mtW [cBelow, cAbove]).2 ∧
      cBelow ∉ (filter_converters_by_native_holdings mtW [cBelow, cAbove]).1) ∧
    cAbove ∈ (filter_converters_by_native_holdings mtW [cBelow, cAbove]).1 := by
  have h := holdings_filter_invariant mtW [cBelow, cAbove]
    (fun c _ => ⟨100, rfl⟩)
  exact ⟨(h cBelow (by simp) 100 rfl).1 (by norm_num [get_native_token_holdings,
           cBelow, source_chain_of, List.find?]),
         (h cAbove (by simp) 100 rfl).2 (by norm_num [get_native_token_holdings,
           cAbove, source_chain_of, List.find?])⟩

/-- C10: if any threshold lookup inside the native-holdings filter raises,
the filter returns the whole input as included and an empty excluded list,
silently bypassing the minimum-holdings rule. -/
theorem holdings_filter_exception_bypass (minTokens : String → Except Unit ℚ)
    (converters_data : List RawConverter)
    (h : ∃ c ∈ converters_data, minTokens (source_chain_of c) = .error ()) :
    filter_converters_by_native_holdings minTokens converters_data =
      (converters_data, []) :=
  filter_holdings_error minTokens converters_data h

/-- Witness for C10: with a raising threshold oracle, even the 50-VRSC
converter reaches the included side. -/
theorem holdings_filter_exception_bypass_witness :
    filter_converters_by_native_holdings mtBad [cBelow, cAbove] =
      ([cBelow, cAbove], []) :=
  holdings_filter_exception_bypass mtBad [cBelow, cAbove]
    ⟨cBelow, by simp, rfl⟩

/-! ### Liquidity-calculator lemmas -/

/-- Converter liquidity is never negative: every early-exit path returns 0
and the success path multiplies three positive factors. -/
lemma get_converter_liquidity_nonneg (est : ConvQuery → Option ℚ)
    (converter_name : String) (converters_data : List ConverterInfo)
    (thr : ℚ) :
    0 ≤ get_converter_liquidity est converter_name converters_data thr := by
  unfold get_converter_liquidity
  split
  · exact le_rfl
  · split
    · exact le_rfl
    · dsimp only
      split_ifs with h1 h2 h3 h4
      · exact le_rfl
      · exact le_rfl
      · exact le_rfl
      · exact le_rfl
      · push_neg at h1 h2 h3
        exact le_of_lt (mul_pos (mul_pos h1.2.2 h2) h3)

/-- C3: whenever either hop of the liquidity resolution chain fails or
returns a nonpositive rate (a failed RPC call is modelled as rate 0), the
converter-liquidity computation returns exactly 0; moreover the result is
never negative (and, over `ℚ`, never NaN). -/
theorem liquidity_hop_failure_yields_zero (est : ConvQuery → Option ℚ)
    (converter_name : String) (converters_data : List ConverterInfo) (thr : ℚ) :
    0 ≤ get_converter_liquidity est converter_name converters_data thr ∧
    (∀ info, converters_data.find? (fun c => c.name = some converter_name) = some info →
      (converter_native_ratio est converter_name info ≤ 0 ∨
       converter_native_usd_price est (info.source_chain.getD "VRSC") ≤ 0) →
      get_converter_liquidity est converter_name converters_data thr = 0) := by
  refine ⟨get_converter_liquidity_nonneg est converter_name converters_data thr, ?_⟩
  intro info hfind hhop
  cases hs : info.supply with
  | none => simp [get_converter_liquidity, hfind, hs]
  | some supply =>
      simp only [get_converter_liquidity, hfind, hs]
      split_ifs with h1 h2 h3 h4
      · rfl
      · rfl
      · rfl
      · rfl
      · push_neg at h2 h3
        rcases hhop with hhop | hhop
        · exact absurd hhop (not_le.mpr h2)
        · exact absurd hhop (not_le.mpr h3)

/-- Witness for C3: against an oracle on which every estimate fails, a
well-formed converter's liquidity evaluates to 0 through the theorem. -/
theorem liquidity_hop_failure_yields_zero_witness :
    get_converter_liquidity estFail "TestConv" [infoC3] 1000 = 0 :=
  (liquidity_hop_failure_yields_zero estFail "TestConv" [infoC3] 1000).2 infoC3
    (by simp [infoC3, List.find?])
    (Or.inl (by norm_num [converter_native_ratio, estFail, infoC3]))

/-- C7 counterexample: at the claimed scenario inputs (supply 69,665.9,
hop rates 156.72 and 2.15) the code computes supply × r1 × r2 =
23,473,785.6732 USD, which is more than 34,000 USD away from the claimed
≈ 23,508,055 — far beyond rounding. -/
theorem veth_liquidity_scenario_counterexample :
    get_converter_liquidity vethEst "Bridge.vETH" [vethInfo] 1000 = 58684464183/2500 ∧
    (34000 : ℚ) < |(58684464183/2500 : ℚ) - 23508055| := by
  constructor
  · simp +decide [get_converter_liquidity, vethEst, vethInfo, converter_native_ratio,
      converter_native_usd_price, get_vrsc_usd_price_cached, List.find?]
    norm_num
  · rw [abs_of_nonpos (by norm_num)]
    norm_num

/-- C7 (amended): for a found converter with supply S, liquidity is 0
whenever S is below the raw-supply floor of 1000, and equals
S × r1 × r2 when S is at or above the floor and both hop rates are
positive; at the scenario inputs (S = 69,665.9, r1 = 156.72, r2 = 2.15)
this yields exactly 58684464183/2500 ≈ 23,473,785.67 USD, and the
25% + 25% reserve pair receives half of it, 58684464183/5000
≈ 11,736,892.84 USD. -/
theorem supply_floor_and_liquidity_formula :
    (∀ (est : ConvQuery → Option ℚ) (converter_name : String)
        (converters_data : List ConverterInfo) (info : ConverterInfo) (S : ℚ),
      converters_data.find? (fun c => c.name = some converter_name) = some info →
      info.supply = some S →
      (S < 1000 → get_converter_liquidity est converter_name converters_data 1000 = 0) ∧
      (1000 ≤ S → ¬(info.currency_id = none ∨ info.currency_id = some "") →
        0 < converter_native_ratio est converter_name info →
        0 < converter_native_usd_price est (info.source_chain.getD "VRSC") →
        get_converter_liquidity est converter_name converters_data 1000 =
          S * converter_native_ratio est converter_name info *
            converter_native_usd_price est (info.source_chain.getD "VRSC"))) ∧
    get_converter_liquidity vethEst "Bridge.vETH" [vethInfo] 1000 = 58684464183/2500 ∧
    get_pair_liquidity vethEst "Bridge.vETH" "DAI.vETH" "MKR.vETH" [vethInfo] =
      58684464183/5000 := by
  refine ⟨?_, ?_, ?_⟩
  · intro est converter_name converters_data info S hfind hsupply
    constructor
    · intro hlt
      simp only [get_converter_liquidity, hfind, hsupply]
      split_ifs <;> rfl
    · intro hge hid hr1 hr2
      simp only [get_converter_liquidity, hfind, hsupply]
      split_ifs with h1 h2 h3 h4
      · rcases h1 with h1 | h1 | h1
        · exact absurd (Or.inl h1) hid
        · exact absurd (Or.inr h1) hid
        · linarith
      · exact absurd h2 (not_le.mpr hr1)
      · exact absurd h3 (not_le.mpr hr2)
      · linarith
      · rfl
  · simp +decide [get_converter_liquidity, vethEst, vethInfo, converter_native_ratio,
      converter_native_usd_price, get_vrsc_usd_price_cached, List.find?]
    norm_num
  · simp +decide [get_pair_liquidity, get_converter_liquidity, vethEst, vethInfo,
      converter_native_ratio, converter_native_usd_price, get_vrsc_usd_price_cached,
      List.find?, pairWeights]
    norm_num

/-- Witness for C7 (amended): a converter with raw supply 500 < 1000 gets
liquidity 0 through the supply-floor branch of the theorem. -/
theorem supply_floor_and_liquidity_formula_witness :
    get_converter_liquidity vethEst "Tiny.pool" [lowSupplyInfo] 1000 = 0 :=
  (supply_floor_and_liquidity_formula.1 vethEst "Tiny.pool" [lowSupplyInfo]
      lowSupplyInfo 500 (by simp [lowSupplyInfo, List.find?]) rfl).1 (by norm_num)

/-- C4: for a found converter with positive total reserve weight W (and
nonnegative pair weights), pair liquidity follows the weight-share laws:
2 × (non-basket weight ÷ W) × L when one side is the converter's own basket
token, ((weight_a + weight_b) ÷ W) × L when both sides are reserve
currencies, and 0 whenever a required weight is zero or L is zero. -/
theorem pair_liquidity_weight_formula (est : ConvQuery → Option ℚ)
    (converter_name base_currency target_currency : String)
    (converters_data : List ConverterInfo) (info : ConverterInfo)
    (hfind : converters_data.find? (fun c => c.name = some converter_name) = some info)
    (hW : 0 < (pairWeights info.reserve_currencies base_currency target_currency).2.2)
    (hbw : 0 ≤ (pairWeights info.reserve_currencies base_currency target_currency).1)
    (htw : 0 ≤ (pairWeights info.reserve_currencies base_currency target_currency).2.1) :
    (get_converter_liquidity est converter_name converters_data 1000 = 0 →
      get_pair_liquidity est converter_name base_currency target_currency
        converters_data = 0) ∧
    (base_currency = converter_name →
      get_pair_liquidity est converter_name base_currency target_currency
          converters_data =
        2 * ((pairWeights info.reserve_currencies base_currency target_currency).2.1 /
              (pairWeights info.reserve_currencies base_currency target_currency).2.2) *
          get_converter_liquidity est converter_name converters_data 1000) ∧
    (target_currency = converter_name → base_currency ≠ converter_name →
      get_pair_liquidity est converter_name base_currency target_currency
          converters_data =
        2 * ((pairWeights info.reserve_currencies base_currency target_currency).1 /
              (pairWeights info.reserve_currencies base_currency target_currency).2.2) *
          get_converter_liquidity est converter_name converters_data 1000) ∧
    (base_currency ≠ converter_name → target_currency ≠ converter_name →
      (pairWeights info.reserve_currencies base_currency target_currency).1 ≠ 0 →
      (pairWeights info.reserve_currencies base_currency target_currency).2.1 ≠ 0 →
      get_pair_liquidity est converter_name base_currency target_currency
          converters_data =
        (((pairWeights info.reserve_currencies base_currency target_currency).1 +
           (pairWeights info.reserve_currencies base_currency target_currency).2.1) /
          (pairWeights info.reserve_currencies base_currency target_currency).2.2) *
          get_converter_liquidity est converter_name converters_data 1000) ∧
    (base_currency ≠ converter_name → target_currency ≠ converter_name →
      ((pairWeights info.reserve_currencies base_currency target_currency).1 = 0 ∨
       (pairWeights info.reserve_currencies base_currency target_currency).2.1 = 0) →
      get_pair_liquidity est converter_name base_currency target_currency
        converters_data = 0) := by
  have hL0 := get_converter_liquidity_nonneg est converter_name converters_data 1000
  by_cases hLz : get_converter_liquidity est converter_name converters_data 1000 ≤ 0
  · have hLeq : get_converter_liquidity est converter_name converters_data 1000 = 0 :=
      le_antisymm hLz hL0
    have hres : get_pair_liquidity est converter_name base_currency target_currency
        converters_data = 0 := by
      simp only [get_pair_liquidity, if_pos hLz]
    refine ⟨fun _ => hres, fun _ => ?_, fun _ _ => ?_, fun _ _ _ _ => ?_,
      fun _ _ _ => hres⟩ <;> rw [hres, hLeq] <;> ring
  · have hres : get_pair_liquidity est converter_name base_currency target_currency
        converters_data =
        (if base_currency = converter_name ∨ target_currency = converter_name then
          (if 0 < (if base_currency = converter_name then
                (pairWeights info.reserve_currencies base_currency target_currency).2.1
              else (pairWeights info.reserve_currencies base_currency target_currency).1) ∧
              0 < (pairWeights info.reserve_currencies base_currency target_currency).2.2 then
            ((if base_currency = converter_name then
                (pairWeights info.reserve_currencies base_currency target_currency).2.1
              else (pairWeights info.reserve_currencies base_currency target_currency).1) /
              (pairWeights info.reserve_currencies base_currency target_currency).2.2) *
              get_converter_liquidity est converter_name converters_data 1000 * 2
          else 0)
        else
          (if 0 < (pairWeights info.reserve_currencies base_currency target_currency).1 ∧
              0 < (pairWeights info.reserve_currencies base_currency target_currency).2.1 ∧
              0 < (pairWeights info.reserve_currencies base_currency target_currency).2.2 then
            (((pairWeights info.reserve_currencies base_currency target_currency).1 +
               (pairWeights info.reserve_currencies base_currency target_currency).2.1) /
              (pairWeights info.reserve_currencies base_currency target_currency).2.2) *
              get_converter_liquidity est converter_name converters_data 1000
          else 0)) := by
      simp only [get_pair_liquidity, if_neg hLz, hfind]
    refine ⟨fun h => absurd (le_of_eq h) hLz, ?_, ?_, ?_, ?_⟩
    · intro hbase
      rw [hres, if_pos (Or.inl hbase), if_pos hbase]
      by_cases htwz :
          0 < (pairWeights info.reserve_currencies base_currency target_currency).2.1
      · rw [if_pos ⟨htwz, hW⟩]; ring
      · have h0 : (pairWeights info.reserve_currencies base_currency target_currency).2.1
            = 0 := le_antisymm (not_lt.mp htwz) htw
        rw [if_neg (fun hc => htwz hc.1), h0]
        ring
    · intro htarget hbase
      rw [hres, if_pos (Or.inr htarget), if_neg hbase]
      by_cases hbwz :
          0 < (pairWeights info.reserve_currencies base_currency target_currency).1
      · rw [if_pos ⟨hbwz, hW⟩]; ring
      · have h0 : (pairWeights info.reserve_currencies base_currency target_currency).1
            = 0 := le_antisymm (not_lt.mp hbwz) hbw
        rw [if_neg (fun hc => hbwz hc.1), h0]
        ring
    · intro hbase htarget hbwne htwne
      rw [hres, if_neg (fun hc => hc.elim hbase htarget),
        if_pos ⟨lt_of_le_of_ne hbw (Ne.symm hbwne), lt_of_le_of_ne htw (Ne.symm htwne), hW⟩]
    · intro hbase htarget hzero
      rw [hres, if_neg (fun hc => hc.elim hbase htarget), if_neg]
      rcases hzero with h0 | h0
      · exact fun hc => absurd h0 (ne_of_gt hc.1)
      · exact fun hc => absurd h0 (ne_of_gt hc.2.1)

/-- Witness for C4 at the Bridge.vETH scenario data: the DAI.vETH/MKR.vETH
reserve pair (weights 25% + 25%, total weight 1) receives the combined
weight share of the converter liquidity. -/
theorem pair_liquidity_weight_formula_witness :
    get_pair_liquidity vethEst "Bridge.vETH" "DAI.vETH" "MKR.vETH" [vethInfo] =
      ((1/4 + 1/4) / 1) *
        get_converter_liquidity vethEst "Bridge.vETH" [vethInfo] 1000 := by
  have hw : pairWeights vethInfo.reserve_currencies "DAI.vETH" "MKR.vETH" =
      (1/4, 1/4, 1) := by
    simp [pairWeights, vethInfo]
    norm_num
  have h := (pair_liquidity_weight_formula vethEst "Bridge.vETH" "DAI.vETH" "MKR.vETH"
    [vethInfo] vethInfo (by simp [vethInfo, List.find?])
    (by rw [hw]; norm_num) (by rw [hw]; norm_num) (by rw [hw]; norm_num)).2.2.2.1
    (by simp) (by simp) (by rw [hw]; norm_num) (by rw [hw]; norm_num)
  rw [h, hw]

/-- C5: two pair records with the same (base, target) aggregation key merge
into a single ticker whose volumes are the sums and whose price is the
quote-volume-weighted average; with equal quote volumes this is the
arithmetic mean of the two prices. -/
theorem cmc_aggregation_weighted_price (p1 p2 : PairData)
    (hbid : p1.base_currency_id = p2.base_currency_id)
    (htid : p1.target_currency_id = p2.target_currency_id)
    (hb1 : 0 < p1.base_volume) (hb2 : 0 < p2.base_volume)
    (hw : 0 < p1.target_volume + p2.target_volume) :
    ∃ t : CmcTicker,
      aggregate_pairs_for_iaddress_cmc [p1, p2] =
        [(p1.base_currency_id ++ "_" ++ p1.target_currency_id, t)] ∧
      t.base_volume = p1.base_volume + p2.base_volume ∧
      t.quote_volume = p1.target_volume + p2.target_volume ∧
      t.last_price = (p1.last * p1.target_volume + p2.last * p2.target_volume) /
        (p1.target_volume + p2.target_volume) ∧
      (p1.target_volume = p2.target_volume →
        t.last_price = (p1.last + p2.last) / 2) := by
  have hb1' : ¬ p1.base_volume ≤ 0 := not_le.mpr hb1
  have hb2' : ¬ p2.base_volume ≤ 0 := not_le.mpr hb2
  have hkey : p2.base_currency_id ++ "_" ++ p2.target_currency_id =
      p1.base_currency_id ++ "_" ++ p1.target_currency_id := by rw [hbid, htid]
  refine ⟨{ base_id := p1.base_currency_id, base_name := p1.base_currency,
            base_symbol := p1.base_currency, quote_id := p1.target_currency_id,
            quote_name := p1.target_currency, quote_symbol := p1.target_currency,
            last_price := (p1.last * p1.target_volume + p2.last * p2.target_volume) /
              (p1.target_volume + p2.target_volume),
            base_volume := p1.base_volume + p2.base_volume,
            quote_volume := p1.target_volume + p2.target_volume },
    ?_, rfl, rfl, rfl, ?_⟩
  · show aggregate_cmc_step (aggregate_cmc_step [] p1) p2 = _
    have hstep1 : aggregate_cmc_step [] p1 =
        [(p1.base_currency_id ++ "_" ++ p1.target_currency_id,
          { base_id := p1.base_currency_id, base_name := p1.base_currency,
            base_symbol := p1.base_currency, quote_id := p1.target_currency_id,
            quote_name := p1.target_currency, quote_symbol := p1.target_currency,
            last_price := p1.last, base_volume := p1.base_volume,
            quote_volume := p1.target_volume })] := by
      simp [aggregate_cmc_step, hb1', dictLookup]
    rw [hstep1]
    simp only [aggregate_cmc_step, hkey, dictLookup, dictInsert, List.find?,
      decide_True, if_pos rfl]
    rw [if_neg hb2']
    simp [hw]
  · intro heq
    rw [← heq] at hw ⊢
    have hpos : (0 : ℚ) < p1.target_volume := by linarith
    field_simp
    ring

/-- Witness for C5 at the §8 scenario: contributors with volumes (100, 50)
and (50, 25) and prices 2.0 and 4.0 aggregate to volumes (150, 75) and
price 8/3 ≈ 2.67. -/
theorem cmc_aggregation_weighted_price_witness :
    ∃ t : CmcTicker,
      aggregate_pairs_for_iaddress_cmc [cmcP1, cmcP2] = [("i-aaa_i-bbb", t)] ∧
      t.base_volume = 150 ∧ t.quote_volume = 75 ∧ t.last_price = 8/3 := by
  obtain ⟨t, hagg, hb, hq, hp, -⟩ := cmc_aggregation_weighted_price cmcP1 cmcP2
    rfl rfl (by norm_num [cmcP1]) (by norm_num [cmcP2]) (by norm_num [cmcP1, cmcP2])
  refine ⟨t, ?_, ?_, ?_, ?_⟩
  · simpa [cmcP1] using hagg
  · rw [hb]; norm_num [cmcP1, cmcP2]
  · rw [hq]; norm_num [cmcP1, cmcP2]
  · rw [hp]; norm_num [cmcP1, cmcP2]

/-- C6 counterexample: the converter named `Bridge.QUARK`, which is absent
from the home-chain table, is dropped by the bridge filter on every chain
that reports it — it is not retained as a native converter as the claim
states. -/
theorem unmapped_bridge_retained_counterexample :
    beginsWith (fqn unmappedBridgeConv) "Bridge." = true ∧
    lookupBridgeChain (fqn unmappedBridgeConv) = none ∧
    filter_bridge_converters_by_chain [unmappedBridgeConv] "VRSC" = [] ∧
    filter_bridge_converters_by_chain [unmappedBridgeConv] "CHIPS" = [] :=
  ⟨rfl, rfl, rfl, rfl⟩

/-- C6 (amended): a converter whose name marks it as a bridge but is absent
from the home-chain table is excluded from every chain's bridge-filter
result (never retained anywhere). -/
theorem unmapped_bridge_excluded_everywhere (chain : String)
    (converters_data : List RawConverter) (name : String)
    (hb : beginsWith name "Bridge." = true)
    (hn : lookupBridgeChain name = none) :
    ∀ c ∈ filter_bridge_converters_by_chain converters_data chain,
      fqn c ≠ name := by
  intro c hc heq
  have h2 := (List.mem_filter.mp hc).2
  rw [heq] at h2
  simp [hb, hn] at h2

/-- Witness for C6 (amended): no converter named `Bridge.QUARK` survives the
bridge filter on chain VDEX. -/
theorem unmapped_bridge_excluded_everywhere_witness :
    (filter_bridge_converters_by_chain [unmappedBridgeConv] "VDEX").countP
      (fun c => fqn c = "Bridge.QUARK") = 0 := by
  rw [List.countP_eq_zero]
  intro c hc
  simpa using unmapped_bridge_excluded_everywhere "VDEX" [unmappedBridgeConv]
    "Bridge.QUARK" rfl rfl c hc

/-- The universal price inversion never changes a record's volumes. -/
lemma inversion_preserves_volumes (rule : String → String → Bool) (p : PairData) :
    (apply_universal_price_inversion rule p).base_volume = p.base_volume ∧
    (apply_universal_price_inversion rule p).target_volume = p.target_volume := by
  unfold apply_universal_price_inversion
  split <;> exact ⟨rfl, rfl⟩

/-- C8: every pair record materialized by the extraction stage has at least
one non-zero volume observation; a pair with base volume 0 and target
volume 0 never appears in the output. -/
theorem pair_materialization_requires_volume
    (all_volume_data : String → String → Option (List VolumePair))
    (est : ConvQuery → Option ℚ) (rule : String → String → Bool)
    (converters : List ConverterInfo) :
    ∀ p ∈ extract_all_pairs_data all_volume_data est rule converters,
      ¬(p.base_volume = 0 ∧ p.target_volume = 0) := by
  intro p hp
  rw [extract_all_pairs_data, List.mem_flatMap] at hp
  obtain ⟨conv, hconv, hp⟩ := hp
  by_cases hlen : (get_converter_currencies conv).length < 2
  · rw [if_pos hlen] at hp
    exact absurd hp (List.not_mem_nil p)
  · rw [if_neg hlen, List.mem_map] at hp
    obtain ⟨q, hq, rfl⟩ := hp
    rw [(inversion_preserves_volumes rule q).1, (inversion_preserves_volumes rule q).2]
    rw [extract_pairs_for_converter, List.mem_flatMap] at hq
    obtain ⟨base_currency, hbase, hq⟩ := hq
    rw [List.mem_flatMap] at hq
    obtain ⟨target_currency, htarget, hq⟩ := hq
    rw [pairs_for_combination] at hq
    by_cases hbt : base_currency = target_currency
    · rw [if_pos hbt] at hq
      exact absurd hq (List.not_mem_nil q)
    · rw [if_neg hbt] at hq
      dsimp only at hq
      split at hq
      next hvol =>
        rw [List.mem_singleton] at hq
        subst hq
        rintro ⟨hb0, ht0⟩
        dsimp only at hb0 ht0
        rcases hvol with hvol | hvol
        · rw [hb0] at hvol
          exact lt_irrefl 0 hvol
        · rw [ht0] at hvol
          exact lt_irrefl 0 hvol
      next hvol =>
        exact absurd hq (List.not_mem_nil q)

/-- Witness for C8: the one record extracted from `convW` carries volumes
(5, 5), so its volumes are not both zero. -/
theorem pair_materialization_requires_volume_witness :
    ¬(pW.base_volume = 0 ∧ pW.target_volume = 0) :=
  pair_materialization_requires_volume avdW estFail ruleW [convW] pW
    (by rw [show extract_all_pairs_data avdW estFail ruleW [convW] = [pW] from rfl]
        exact List.mem_singleton.mpr rfl)

/-! ### Discovery lemmas -/

/-- Looking up in a dict after one assignment. -/
lemma dictLookup_cons {α : Type} (p : String × α) (l : List (String × α))
    (k : String) :
    dictLookup (p :: l) k = if p.1 = k then some p.2 else dictLookup l k := by
  by_cases h : p.1 = k <;> simp [dictLookup, List.find?, h]

/-- Dict assignment followed by lookup behaves pointwise. -/
lemma dictLookup_dictInsert {α : Type} (l : List (String × α)) (k k' : String)
    (v : α) :
    dictLookup (dictInsert l k v) k' = if k' = k then some v else dictLookup l k' := by
  induction l with
  | nil =>
      by_cases h : k' = k
      · simp [dictInsert, dictLookup, List.find?, h]
      · have h' : ¬ k = k' := fun hh => h hh.symm
        simp [dictInsert, dictLookup, List.find?, h, h']
  | cons p rest ih =>
      by_cases hpk : p.1 = k
      · rw [show dictInsert (p :: rest) k v = (k, v) :: rest from by
          simp [dictInsert, hpk]]
        rw [dictLookup_cons, dictLookup_cons]
        by_cases h : k' = k
        · simp [h]
        · have h1 : ¬ (k, v).1 = k' := fun hh => h (Eq.symm hh)
          have h2 : ¬ p.1 = k' := fun hh => h ((hpk ▸ hh : k = k')).symm
          rw [if_neg h1, if_neg h, if_neg h2]
      · rw [show dictInsert (p :: rest) k v = p :: dictInsert rest k v from by
          simp [dictInsert, hpk]]
        simp only [dictLookup_cons, ih]
        by_cases h : k' = k
        · subst h
          rw [if_neg hpk, if_pos rfl, if_pos rfl]
        · simp [h]

/-- Lookup after folding per-chain dict assignments whose value is a
function of the key. -/
lemma dictLookup_foldl_insert {α : Type} (f : String → α) :
    ∀ (chains : List String) (acc : List (String × α)) (X : String),
      dictLookup
        (chains.foldl (fun acc chain => dictInsert acc chain (f chain)) acc) X =
        if X ∈ chains then some (f X) else dictLookup acc X := by
  intro chains
  induction chains with
  | nil => intro acc X; simp
  | cons c cs ih =>
      intro acc X
      rw [List.foldl_cons, ih, dictLookup_dictInsert]
      by_cases hX : X ∈ cs
      · simp [hX, List.mem_cons]
      · by_cases hXc : X = c
        · simp [hXc, hX, List.mem_cons]
        · simp [hXc, hX, List.mem_cons]

/-- Every key of the bridge home-chain table starts with `Bridge.`. -/
lemma lookupBridgeChain_beginsWith (b Y : String)
    (h : lookupBridgeChain b = some Y) : beginsWith b "Bridge." = true := by
  unfold lookupBridgeChain at h
  cases hf : bridge_converter_chains.find? (fun q => q.1 = b) with
  | none => rw [hf] at h; simp at h
  | some q =>
      have hqb : q.1 = b := by
        have h1 := List.find?_some hf
        simpa using h1
      have hmem := List.mem_of_find?_eq_some hf
      rw [← hqb]
      fin_cases hmem <;> rfl

/-- A name mapped by the bridge table is nonempty. -/
lemma lookupBridgeChain_ne_empty (b Y : String)
    (h : lookupBridgeChain b = some Y) : b ≠ "" := by
  intro hb
  subst hb
  have := lookupBridgeChain_beginsWith "" Y h
  rw [show beginsWith "" "Bridge." = false from rfl] at this
  exact Bool.false_ne_true this

/-- A bridge converter kept by the bridge filter was scanned on its home
chain. -/
lemma filter_bridge_kept (cs : List RawConverter) (chain Y : String)
    (c : RawConverter)
    (hc : c ∈ filter_bridge_converters_by_chain cs chain)
    (hY : lookupBridgeChain (fqn c) = some Y) : chain = Y := by
  have h2 := (List.mem_filter.mp hc).2
  rw [if_pos (lookupBridgeChain_beginsWith (fqn c) Y hY)] at h2
  have := of_decide_eq_true h2
  rw [hY] at this
  exact (Option.some.injEq Y chain ▸ this.symm ▸ rfl : Y = chain).symm

/-- Structure of a converter contributed by one chain's scan: it is a
bridge-filtered converter of that chain's fetched list, tagged with the
chain. -/
lemma mem_per_chain_converters (fetch : String → Option (List RawConverter))
    (X : String) (c : RawConverter)
    (hc : c ∈ per_chain_converters fetch X) :
    ∃ raw c', fetch X = some raw ∧
      c' ∈ filter_bridge_converters_by_chain raw X ∧
      c = { c' with source_chain := some X } := by
  cases hf : fetch X with
  | none => simp [per_chain_converters, per_chain_result, hf, zeroChainResult] at hc
  | some raw =>
      by_cases hraw : raw = []
      · simp [per_chain_converters, per_chain_result, hf, hraw, zeroChainResult] at hc
      · simp only [per_chain_converters, per_chain_result, hf, if_neg hraw,
          List.mem_map] at hc
        obtain ⟨c', hc', rfl⟩ := hc
        exact ⟨raw, c', rfl, hc', rfl⟩

/-- A chain different from a bridge converter's home chain contributes no
converter of that name. -/
lemma countB_per_chain_ne (fetch : String → Option (List RawConverter))
    (X b Y : String) (hY : lookupBridgeChain b = some Y) (hne : X ≠ Y) :
    (per_chain_converters fetch X).countP (fun c => decide (fqn c = b)) = 0 := by
  rw [List.countP_eq_zero]
  intro c hc
  simp only [decide_eq_true_eq]
  intro hfqn
  obtain ⟨raw, c', hfetch, hc', rfl⟩ := mem_per_chain_converters fetch X c hc
  have hfqn' : fqn c' = b := hfqn
  exact hne (filter_bridge_kept raw X Y c' hc' (hfqn' ▸ hY))

/-- A chain contributes at most as many converters of a given name as its
scan reported. -/
lemma countB_per_chain_le (fetch : String → Option (List RawConverter))
    (X b : String) :
    (per_chain_converters fetch X).countP (fun c => decide (fqn c = b)) ≤
      ((fetch X).getD []).countP (fun c => decide (fqn c = b)) := by
  cases hf : fetch X with
  | none => simp [per_chain_converters, per_chain_result, hf, zeroChainResult]
  | some raw =>
      by_cases hraw : raw = []
      · simp [per_chain_converters, per_chain_result, hf, hraw, zeroChainResult]
      · simp only [per_chain_converters, per_chain_result, hf, if_neg hraw,
          Option.getD_some, List.countP_map]
        refine le_trans (le_of_eq (List.countP_congr ?_))
          ((List.filter_sublist raw).countP_le (fun c => decide (fqn c = b)))
        intro c _
        exact Iff.rfl

/-- With duplicate-free chains and the home chain reporting the bridge name
at most once, the merged contribution carries it at most once. -/
lemma countB_flatMap_le_one (fetch : String → Option (List RawConverter))
    (chains : List String) (b Y : String)
    (hY : lookupBridgeChain b = some Y) (hnodup : chains.Nodup)
    (hfetchY : ((fetch Y).getD []).countP (fun c => decide (fqn c = b)) ≤ 1) :
    (chains.flatMap (per_chain_converters fetch)).countP
      (fun c => decide (fqn c = b)) ≤ 1 := by
  induction chains with
  | nil => simp
  | cons X cs ih =>
      rw [List.flatMap_cons, List.countP_append]
      have hnd := List.nodup_cons.mp hnodup
      by_cases hXY : X = Y
      · subst hXY
        have hcs : (cs.flatMap (per_chain_converters fetch)).countP
            (fun c => decide (fqn c = b)) = 0 := by
          rw [List.countP_eq_zero]
          intro c hc
          rw [List.mem_flatMap] at hc
          obtain ⟨X', hX', hc⟩ := hc
          have hne : X' ≠ X := fun h => hnd.1 (h ▸ hX')
          have h0 := countB_per_chain_ne fetch X' b X hY hne
          rw [List.countP_eq_zero] at h0
          exact h0 c hc
        have hle := countB_per_chain_le fetch X b
        omega
      · have h0 := countB_per_chain_ne fetch X b Y hY hXY
        have := ih hnd.2
        omega

/-- The chains field of the discovery result is the per-chain dict,
regardless of the error branch. -/
lemma discover_chains_eq (fetch : String → Option (List RawConverter))
    (minTokens : String → Except Unit ℚ) (tickerOf : String → String)
    (chains : List String) :
    (discover_active_converters fetch minTokens tickerOf chains).chains =
      chains.foldl
        (fun acc chain => dictInsert acc chain (per_chain_result fetch chain)) [] := by
  by_cases hall : chains.flatMap (per_chain_converters fetch) = [] <;>
    simp [discover_active_converters, hall]

/-- The full discovery result in the run-level error case. -/
lemma discover_error_case (fetch : String → Option (List RawConverter))
    (minTokens : String → Except Unit ℚ) (tickerOf : String → String)
    (chains : List String)
    (hall : chains.flatMap (per_chain_converters fetch) = []) :
    discover_active_converters fetch minTokens tickerOf chains =
      { active_converters := [], excluded_converters := [], total_count := 0,
        active_count := 0, excluded_count := 0,
        chains := chains.foldl
          (fun acc chain => dictInsert acc chain (per_chain_result fetch chain)) [],
        error := some "Failed to fetch converters from any chain" } := by
  simp [discover_active_converters, hall]

/-- The active and excluded lists in the non-error case. -/
lemma discover_nonerror (fetch : String → Option (List RawConverter))
    (minTokens : String → Except Unit ℚ) (tickerOf : String → String)
    (chains : List String)
    (hall : chains.flatMap (per_chain_converters fetch) ≠ []) :
    (discover_active_converters fetch minTokens tickerOf chains).active_converters =
      (filter_converters_by_native_holdings minTokens
        (chains.flatMap (per_chain_converters fetch))).1.map
          (extract_converter_info tickerOf) ∧
    (discover_active_converters fetch minTokens tickerOf chains).excluded_converters =
      (filter_converters_by_native_holdings minTokens
        (chains.flatMap (per_chain_converters fetch))).2.map
          (extract_converter_info tickerOf) ∧
    (discover_active_converters fetch minTokens tickerOf chains).error = none := by
  refine ⟨?_, ?_, ?_⟩ <;> simp [discover_active_converters, hall]

/-- The error field is set exactly when the merged bridge-filtered list is
empty. -/
lemma discover_error_eq (fetch : String → Option (List RawConverter))
    (minTokens : String → Except Unit ℚ) (tickerOf : String → String)
    (chains : List String) :
    (discover_active_converters fetch minTokens tickerOf chains).error =
      if chains.flatMap (per_chain_converters fetch) = [] then
        some "Failed to fetch converters from any chain"
      else none := by
  by_cases hall : chains.flatMap (per_chain_converters fetch) = [] <;>
    simp [discover_active_converters, hall]

/-- A nonempty name survives extraction unchanged. -/
lemma extract_name_eq_iff (tickerOf : String → String) (c : RawConverter)
    (b : String) (hb : b ≠ "") :
    (extract_converter_info tickerOf c).name = some b ↔ fqn c = b := by
  constructor
  · intro h
    have hcf : c.fullyqualifiedname = some b := h
    simp [fqn, hcf]
  · intro h
    cases hcf : c.fullyqualifiedname with
    | none =>
        simp [fqn, hcf] at h
        exact absurd h.symm hb
    | some s =>
        have hsb : s = b := by simpa [fqn, hcf] using h
        show c.fullyqualifiedname = some b
        rw [hcf, hsb]

/-- Counting a (nonempty) name in the merged processed output equals
counting it in the merged raw contribution. -/
lemma discover_merge_countP (fetch : String → Option (List RawConverter))
    (minTokens : String → Except Unit ℚ) (tickerOf : String → String)
    (chains : List String) (b : String) (hb : b ≠ "") :
    ((discover_active_converters fetch minTokens tickerOf chains).active_converters ++
      (discover_active_converters fetch minTokens tickerOf chains).excluded_converters).countP
        (fun i => decide (i.name = some b)) =
      (chains.flatMap (per_chain_converters fetch)).countP
        (fun c => decide (fqn c = b)) := by
  by_cases hall : chains.flatMap (per_chain_converters fetch) = []
  · rw [discover_error_case fetch minTokens tickerOf chains hall, hall]
    rfl
  · obtain ⟨ha, he, -⟩ := discover_nonerror fetch minTokens tickerOf chains hall
    rw [ha, he, List.countP_append, List.countP_map, List.countP_map]
    have hcong : ∀ l : List RawConverter,
        l.countP ((fun i => decide (i.name = some b)) ∘ extract_converter_info tickerOf) =
          l.countP (fun c => decide (fqn c = b)) := by
      intro l
      apply List.countP_congr
      intro c _
      simp only [Function.comp_apply, decide_eq_true_eq]
      exact extract_name_eq_iff tickerOf c b hb
    rw [hcong, hcong, filter_holdings_countP]

/-- C1: a bridge converter whose name is mapped to home chain Y by the fixed
table is excluded from the per-chain result of every chain X ≠ Y, is always
tagged with source chain Y in the merged discovery output, and (for
duplicate-free chains whose home-chain scan reports it at most once)
appears at most once in the merged output; in the CHIPS/VRSC scenario the
final active set contains it exactly once, tagged CHIPS. -/
theorem bridge_home_chain_uniqueness :
    (∀ (fetch : String → Option (List RawConverter))
        (minTokens : String → Except Unit ℚ) (tickerOf : String → String)
        (chains : List String) (b Y : String),
      lookupBridgeChain b = some Y →
      (∀ X res, X ≠ Y →
        dictLookup
          (discover_active_converters fetch minTokens tickerOf chains).chains X =
            some res →
        ∀ c ∈ res.converters, fqn c ≠ b) ∧
      (∀ i ∈ (discover_active_converters fetch minTokens tickerOf chains).active_converters ++
          (discover_active_converters fetch minTokens tickerOf chains).excluded_converters,
        i.name = some b → i.source_chain = some Y) ∧
      (chains.Nodup →
        ((fetch Y).getD []).countP (fun c => decide (fqn c = b)) ≤ 1 →
        ((discover_active_converters fetch minTokens tickerOf chains).active_converters ++
          (discover_active_converters fetch minTokens tickerOf chains).excluded_converters).countP
            (fun i => decide (i.name = some b)) ≤ 1)) ∧
    (discover_active_converters scenFetch mtW tickerId
        ["CHIPS", "VRSC"]).active_converters.map (fun i => (i.name, i.source_chain)) =
      [(some "Bridge.CHIPS", some "CHIPS")] := by
  constructor
  · intro fetch minTokens tickerOf chains b Y hY
    refine ⟨?_, ?_, ?_⟩
    · intro X res hne hres c hc hfqn
      rw [discover_chains_eq, dictLookup_foldl_insert] at hres
      by_cases hX : X ∈ chains
      · rw [if_pos hX] at hres
        cases Option.some.inj hres
        obtain ⟨raw, c', hfetch, hc', rfl⟩ :=
          mem_per_chain_converters fetch X c hc
        have hfqn' : fqn c' = b := hfqn
        have hY' : lookupBridgeChain (fqn c') = some Y := by rw [hfqn']; exact hY
        exact hne (filter_bridge_kept raw X Y c' hc' hY')
      · rw [if_neg hX] at hres
        simp [dictLookup] at hres
    · intro i hi hname
      by_cases hall : chains.flatMap (per_chain_converters fetch) = []
      · rw [discover_error_case fetch minTokens tickerOf chains hall] at hi
        simp at hi
      · obtain ⟨ha, he, -⟩ := discover_nonerror fetch minTokens tickerOf chains hall
        rw [ha, he, ← List.map_append, List.mem_map] at hi
        obtain ⟨c, hc, rfl⟩ := hi
        have hcn : c.fullyqualifiedname = some b := hname
        have hcmem : c ∈ chains.flatMap (per_chain_converters fetch) := by
          rcases List.mem_append.mp hc with h | h
          · exact filter_holdings_mem minTokens _ c (Or.inl h)
          · exact filter_holdings_mem minTokens _ c (Or.inr h)
        rw [List.mem_flatMap] at hcmem
        obtain ⟨X, hX, hcX⟩ := hcmem
        obtain ⟨raw, c', hfetch, hc', rfl⟩ :=
          mem_per_chain_converters fetch X _ hcX
        have hfqn' : fqn c' = b := by
          have hcn' : c'.fullyqualifiedname = some b := hcn
          simp [fqn, hcn']
        have hXY : X = Y :=
          filter_bridge_kept raw X Y c' hc' (by rw [hfqn']; exact hY)
        subst hXY
        rfl
    · intro hnodup hfetchY
      rw [discover_merge_countP fetch minTokens tickerOf chains b
        (lookupBridgeChain_ne_empty b Y hY)]
      exact countB_flatMap_le_one fetch chains b Y hY hnodup hfetchY
  · rfl

/-- Witness for C1: the CHIPS-homed bridge appears at most once in the
merged CHIPS + VRSC discovery output. -/
theorem bridge_home_chain_uniqueness_witness :
    ((discover_active_converters scenFetch mtW tickerId
        ["CHIPS", "VRSC"]).active_converters ++
      (discover_active_converters scenFetch mtW tickerId
        ["CHIPS", "VRSC"]).excluded_converters).countP
        (fun i => decide (i.name = some "Bridge.CHIPS")) ≤ 1 :=
  ((bridge_home_chain_uniqueness.1 scenFetch mtW tickerId ["CHIPS", "VRSC"]
      "Bridge.CHIPS" "CHIPS" rfl).2.2 (by simp) (le_of_eq rfl))

/-- Each list is empty exactly when every element maps to the empty list. -/
lemma flatMap_eq_nil_iff' {α β : Type} (l : List α) (f : α → List β) :
    l.flatMap f = [] ↔ ∀ x ∈ l, f x = [] := by
  induction l with
  | nil => simp
  | cons a t ih => simp [ih]

/-- C9 counterexample: a single configured chain whose scan yields one
converter (a foreign-homed bridge) still produces the run-level error
record, because after bridge filtering the merged list is empty — so the
error does not occur only when every chain yields no converters. -/
theorem discovery_error_only_counterexample :
    (c9Fetch "VRSC").getD [] ≠ [] ∧
    (discover_active_converters c9Fetch mtW tickerId ["VRSC"]).error =
      some "Failed to fetch converters from any chain" := by
  constructor
  · rw [show (c9Fetch "VRSC").getD [] = [bcRaw] from rfl]
    exact List.cons_ne_nil bcRaw []
  · rfl

/-- C9 (amended): the run-level error record appears exactly when every
configured chain contributes no converters after bridge filtering (in
particular whenever every chain's fetch fails or returns an empty list); a
chain whose fetch fails gets the zero per-chain record (which has no error
field), and every configured chain's per-chain record is present in the
result regardless of other chains failing. -/
theorem discovery_error_and_partial_results
    (fetch : String → Option (List RawConverter))
    (minTokens : String → Except Unit ℚ) (tickerOf : String → String)
    (chains : List String) :
    ((discover_active_converters fetch minTokens tickerOf chains).error ≠ none ↔
      ∀ X ∈ chains, per_chain_converters fetch X = []) ∧
    (∀ X, fetch X = none → per_chain_result fetch X = zeroChainResult) ∧
    (∀ X ∈ chains,
      dictLookup
        (discover_active_converters fetch minTokens tickerOf chains).chains X =
          some (per_chain_result fetch X)) := by
  refine ⟨?_, ?_, ?_⟩
  · rw [discover_error_eq, ← flatMap_eq_nil_iff']
    by_cases hall : chains.flatMap (per_chain_converters fetch) = []
    · rw [if_pos hall]
      simp [hall]
    · rw [if_neg hall]
      simp [hall]
  · intro X hX
    simp [per_chain_result, hX]
  · intro X hX
    rw [discover_chains_eq, dictLookup_foldl_insert, if_pos hX]

/-- Witness for C9 (amended): the per-chain record of the single configured
chain is present in the discovery result. -/
theorem discovery_error_and_partial_results_witness :
    dictLookup
      (discover_active_converters c9Fetch mtW tickerId ["VRSC"]).chains "VRSC" =
        some (per_chain_result c9Fetch "VRSC") :=
  (discovery_error_and_partial_results c9Fetch mtW tickerId ["VRSC"]).2.2
    "VRSC" (by simp)

end VerusAPI
